import Mathlib

/-!
Verification of the adversarial regression-testing engine.

This file gives a shallow embedding of the engine's core
(`engine/environment.py`, `engine/explorer.py`, `engine/replay.py`) and
proves or refutes the specified properties against it.

Modelling conventions:
* Python floats (latencies, rewards, epsilon, random draws) are modelled as `ℚ`.
* Python dicts that serve as JSON objects are modelled as structures with
  `Option` fields (`none` = key absent or `None`).
* The state signature (`json.dumps` of a key-sorted summary dict) is modelled
  as a canonical structure `StateSig` whose list fields are sorted exactly as
  the source sorts them; `json.dumps` with `sort_keys=True` is injective on
  such summaries, so equality of `StateSig` values models equality of the
  signature strings.
* The `random.Random` object is modelled as `Rng`, a stream of rational draws
  in `[0,1)`; `random()` consumes one draw, `choice` consumes one draw and
  scales it to an index (an abstraction of the PRNG: the claims never depend
  on the concrete pseudo-random mapping, only on which call sites consume
  randomness and on totality of `choice` for nonempty sequences).
* Exceptions escaping a modelled function are `Option.none` / absent results.
* HTTP traffic is modelled by oracles: `EnvModel` gives the observation each
  performed action produces (threading an abstract server state `σ`), and for
  `BackendEnvironment.perform` itself the three I/O interactions (main
  request, body decode, `/state` fetch) are explicit inputs.
-/

/-! ## String and list utilities (substring test, sorting, set insertion) -/

/-- Char-list version of `needle.isPrefixOf hay`, used for the substring test. -/
def listStartsWith : List Char → List Char → Bool
  | [], _ => true
  | _ :: _, [] => false
  | a :: as, b :: bs => decide (a = b) && listStartsWith as bs

/-- Does `hay` contain `needle` as a contiguous sublist? -/
def listHasSub (needle : List Char) : List Char → Bool
  | [] => listStartsWith needle []
  | c :: cs => listStartsWith needle (c :: cs) || listHasSub needle cs

/-- Python's `needle in hay` substring test. -/
def strContains (hay needle : String) : Bool :=
  listHasSub needle.data hay.data

/-- Insertion step for sorting a list of strings (models Python `sorted`). -/
def insertSorted (x : String) : List String → List String
  | [] => [x]
  | y :: ys => if (compare x y).isLE then x :: y :: ys else y :: insertSorted x ys

/-- Python `sorted` on a list of strings. -/
def sortStrings (l : List String) : List String :=
  l.foldr insertSorted []

/-- Insertion step for sorting an association list by key. -/
def insertSortedKV (x : String × Int) : List (String × Int) → List (String × Int)
  | [] => [x]
  | y :: ys => if (compare x.1 y.1).isLE then x :: y :: ys else y :: insertSortedKV x ys

/-- Key-sorting of a dict rendered as an association list (models the
key-sorting `json.dumps(..., sort_keys=True)` applies to the inventory dict). -/
def sortPairs (l : List (String × Int)) : List (String × Int) :=
  l.foldr insertSortedKV []

/-- Python `set.add`, on a list model of a set: insert if not present. -/
def insertSet {α : Type} [DecidableEq α] (x : α) (s : List α) : List α :=
  if x ∈ s then s else x :: s

/-! ## Data model (`engine/action_space.py`, `engine/environment.py`) -/

/-- `ActionInstance` from `engine/action_space.py`: a concrete
`{name, method, path, json}` tuple.  The JSON body is modelled as an
association list of scalar parameters. -/
structure ActionInstance where
  name : String
  method : String
  path : String
  json : List (String × Int)
deriving DecidableEq

/-- The state snapshot dict used by `Observation` (`environment.py`).
`none` models an absent key (or `None` value). -/
structure StateDict where
  inventory : Option (List (String × Int)) := none
  mode : Option String := none
  orders_total : Option Int := none
  alerts : Option (List String) := none
  invariants : Option (List String) := none
  state_version : Option Int := none
  recent_events : Option (List String) := none
deriving DecidableEq

/-- The decoded JSON body of an HTTP response, restricted to the fields the
engine reads: the `"state"` key (`response_json.get("state")`) and the
`"raw_body"` placeholder substituted on decode failure. -/
structure RespJson where
  state : Option StateDict := none
  raw_body : Option String := none
deriving DecidableEq

/-- `Observation` from `engine/environment.py`. -/
structure Observation where
  action : ActionInstance
  status_code : Int
  latency_ms : ℚ
  response_json : RespJson
  state : StateDict
  log_excerpt : List String
deriving DecidableEq

/-- The canonical content of `Observation.state_signature()`: the summary dict
`{inventory, mode, orders_total, sorted alerts, sorted invariants,
state_version}` serialized with sorted keys.  Equality of `StateSig` values
models equality of the serialized signature strings. -/
structure StateSig where
  inventory : List (String × Int)
  mode : Option String
  orders_total : Option Int
  alerts : List String
  invariants : List String
  state_version : Option Int
deriving DecidableEq

/-- `Observation.state_signature` (`environment.py` lines 20-30). -/
def Observation.state_signature (o : Observation) : StateSig :=
  { inventory := sortPairs (o.state.inventory.getD [])
    mode := o.state.mode
    orders_total := o.state.orders_total
    alerts := sortStrings (o.state.alerts.getD [])
    invariants := sortStrings (o.state.invariants.getD [])
    state_version := o.state.state_version }

/-- `Observation.anomaly_markers` (`environment.py` lines 32-45): note the
invariants loop appends one `"inventory_negative"` entry per matching
invariant string, so the returned list can contain duplicates. -/
def Observation.anomaly_markers (o : Observation) : List String :=
  (if 500 ≤ o.status_code then ["http_5xx"] else [])
    ++ (if 400 ≤ o.status_code then ["http_4xx"] else [])
    ++ (if (o.state.alerts.getD []) ≠ [] then ["alerts_present"] else [])
    ++ ((o.state.invariants.getD []).filter
          (fun inv => strContains inv "inventory_negative")).map
        (fun _ => "inventory_negative")
    ++ (if 250 < o.latency_ms then ["slow_response"] else [])

/-! ## Novelty archive and reward model (`engine/explorer.py`) -/

/-- `NoveltyArchive` (`explorer.py` lines 57-77); the two Python sets are
modelled as duplicate-free lists. -/
structure NoveltyArchive where
  state_signatures : List StateSig
  anomaly_signatures : List String
deriving DecidableEq

/-- A fresh archive, as built at the start of each episode. -/
def emptyArchive : NoveltyArchive := ⟨[], []⟩

/-- `"|".join(sorted(markers))` -/
def canonAnomaly (markers : List String) : String :=
  String.intercalate "|" (sortStrings markers)

/-- `NoveltyArchive.update`. -/
def NoveltyArchive.update (a : NoveltyArchive) (o : Observation) : NoveltyArchive :=
  let a1 : NoveltyArchive :=
    { a with state_signatures := insertSet o.state_signature a.state_signatures }
  let markers := o.anomaly_markers
  if markers ≠ [] then
    { a1 with anomaly_signatures := insertSet (canonAnomaly markers) a1.anomaly_signatures }
  else a1

/-- `NoveltyArchive.is_new_state`. -/
def NoveltyArchive.is_new_state (a : NoveltyArchive) (o : Observation) : Bool :=
  !(decide (o.state_signature ∈ a.state_signatures))

/-- `NoveltyArchive.is_new_anomaly`. -/
def NoveltyArchive.is_new_anomaly (a : NoveltyArchive) (o : Observation) : Bool :=
  let markers := o.anomaly_markers
  if markers = [] then false
  else !(decide (canonAnomaly markers ∈ a.anomaly_signatures))

/-- `RewardModel` weights with the source's default values. -/
structure RewardModel where
  novelty_weight : ℚ := 1
  anomaly_weight : ℚ := 2
  latency_weight : ℚ := 1/2
deriving DecidableEq

/-- `RewardModel.score` (`explorer.py` lines 88-100). -/
def RewardModel.score (m : RewardModel) (o : Observation) (archive : NoveltyArchive) : ℚ :=
  let r0 : ℚ := 0
  let r1 := if archive.is_new_state o then r0 + m.novelty_weight else r0
  let r2 := if o.anomaly_markers ≠ [] then
      r1 + m.anomaly_weight * (o.anomaly_markers.length : ℚ) else r1
  let r3 := if archive.is_new_anomaly o then r2 + m.anomaly_weight else r2
  let r4 := if 250 < o.latency_ms then r3 + m.latency_weight else r3
  if 400 ≤ o.status_code then r4 + 3/10 else r4

/-! ## Exploration policy (`engine/explorer.py` lines 103-130) -/

/-- Per-action statistics `{count, avg}`. -/
structure ActionStats where
  count : Nat
  avg : ℚ
deriving DecidableEq

/-- `EpsilonGreedyPolicy`; `action_stats` is an insertion-ordered dict,
modelled as an association list. -/
structure EpsilonGreedyPolicy where
  epsilon : ℚ
  action_stats : List (String × ActionStats)
deriving DecidableEq

/-- `EpsilonGreedyPolicy.__init__` (lines 106-108): stores epsilon unchanged
and starts with empty statistics; no validation is performed. -/
def mkPolicy (epsilon : ℚ) : EpsilonGreedyPolicy := ⟨epsilon, []⟩

/-- Dict write `stats[name] = v`: update in place, or append a new key at the
end (Python dicts preserve insertion order). -/
def upsert (l : List (String × ActionStats)) (k : String) (v : ActionStats) :
    List (String × ActionStats) :=
  match l with
  | [] => [(k, v)]
  | kv :: t => if kv.1 == k then (k, v) :: t else kv :: upsert t k v

/-- `EpsilonGreedyPolicy.observe` (lines 125-130): `setdefault` then the
incremental mean update using the pre-increment count. -/
def EpsilonGreedyPolicy.observe (p : EpsilonGreedyPolicy) (action_name : String)
    (reward : ℚ) : EpsilonGreedyPolicy :=
  let stats := (p.action_stats.lookup action_name).getD ⟨0, 0⟩
  let count := stats.count
  { p with
      action_stats := upsert p.action_stats action_name
        ⟨count + 1, (stats.avg * (count : ℚ) + reward) / ((count : ℚ) + 1)⟩ }

/-! ## Random source and action templates -/

/-- The seeded PRNG, abstracted as a stream of rational draws in `[0,1)`
(an exhausted stream keeps yielding `0`). -/
structure Rng where
  draws : List ℚ
deriving DecidableEq

/-- `rng.random()`: consume one draw. -/
def Rng.next (r : Rng) : ℚ × Rng :=
  match r.draws with
  | [] => (0, r)
  | d :: ds => (d, ⟨ds⟩)

/-- Index selected by `rng.choice` on a sequence of length `n` from a draw
`u ∈ [0,1)`: scale and clamp.  For `n > 0` this is always a valid index. -/
def chooseIdx (u : ℚ) (n : Nat) : Nat :=
  min (Int.toNat ⌊u * (n : ℚ)⌋) (n - 1)

/-- `rng.choice(xs)`: `none` models the `IndexError` raised on an empty
sequence. -/
def Rng.choice {α : Type} (r : Rng) (xs : List α) : Option α × Rng :=
  let p := r.next
  (xs.get? (chooseIdx p.1 xs.length), p.2)

/-- `ActionTemplate` (`action_space.py`): the parameter sampler is an
arbitrary function of the random source. -/
structure ActionTemplate where
  name : String
  method : String
  path : String
  sampler : Rng → List (String × Int) × Rng

/-- `ActionTemplate.sample`. -/
def ActionTemplate.sample (t : ActionTemplate) (rng : Rng) : ActionInstance × Rng :=
  let s := t.sampler rng
  (⟨t.name, t.method, t.path, s.1⟩, s.2)

/-- Python `max(scored, key=lambda kv: kv[1])`: left fold keeping the first
maximal element (replaces only on strict increase); `none` on the empty list. -/
def argmaxFirst (l : List (String × ℚ)) : Option (String × ℚ) :=
  match l with
  | [] => none
  | h :: t => some (t.foldl (fun best kv => if best.2 < kv.2 then kv else best) h)

/-- `rng.choice(templates).sample(rng)`: the uniform-random fallback used by
`select` in the explore, no-statistics and no-matching-template cases. -/
def randomTemplateSample (space : List ActionTemplate) (r : Rng) :
    Option ActionInstance × Rng :=
  match r.choice space with
  | (some t, r2) => let s := t.sample r2; (some s.1, s.2)
  | (none, r2) => (none, r2)

/-- `EpsilonGreedyPolicy.select` (`explorer.py` lines 110-123).  A `none`
first component models the `IndexError` from `rng.choice` on an empty
template list. -/
def EpsilonGreedyPolicy.select (p : EpsilonGreedyPolicy)
    (space : List ActionTemplate) (rng : Rng) : Option ActionInstance × Rng :=
  let u := rng.next
  if u.1 < p.epsilon then randomTemplateSample space u.2
  else
    let scored := p.action_stats.map (fun nv => (nv.1, nv.2.avg))
    match argmaxFirst scored with
    | none => randomTemplateSample space u.2
    | some best =>
      match space.filter (fun t => t.name == best.1) with
      | [] => randomTemplateSample space u.2
      | c :: _ => let s := c.sample u.2; (some s.1, s.2)

/-! ## Target adapter at the HTTP level (`engine/environment.py` lines 61-98)

`BackendEnvironment.perform` makes up to two HTTP interactions; their outcomes
are explicit inputs of the model. -/

/-- Outcome of decoding the main response body: `ok` models a JSON dict,
`malformed` models the `ValueError` path that substitutes
`{"raw_body": resp.text}`. -/
inductive BodyDecode where
  | ok (d : RespJson)
  | malformed (raw : String)
deriving DecidableEq

/-- Outcome of `self._session.request(...)`: a transport failure (connection
refused, timeout) raises out of the call; otherwise a status code and a body
arrive. -/
inductive MainRequest where
  | transportFailure
  | response (status_code : Int) (body : BodyDecode)
deriving DecidableEq

/-- Outcome of the `GET /state` interaction inside `_fetch_state`: `failure`
models any exception (transport or decode); `success` carries the decoded
JSON document. -/
inductive StateFetch where
  | failure
  | success (data : RespJson)
deriving DecidableEq

/-- The empty dict `{}` used as the last-resort state. -/
def emptyStateDict : StateDict := {}

/-- `BackendEnvironment._fetch_state` (lines 87-98):
`data.get("state", fallback or {})` on success, `fallback or {}` on failure. -/
def fetchStateModel (f : StateFetch) (fallback : Option StateDict) : StateDict :=
  match f with
  | .success data => data.state.getD (fallback.getD emptyStateDict)
  | .failure => fallback.getD emptyStateDict

/-- The `response_json` value computed by `perform`: the decoded dict, or the
`{"raw_body": resp.text}` placeholder. -/
def bodyJson (b : BodyDecode) : RespJson :=
  match b with
  | .ok d => d
  | .malformed raw => { state := none, raw_body := some raw }

/-- `BackendEnvironment.perform` (lines 61-85) at the level of its I/O
outcomes.  `none` models an exception escaping `perform` (aborting the step):
the main request is not guarded by any `try`, so its transport failure
propagates; every other failure mode is degraded into an `Observation`. -/
def performModel (a : ActionInstance) (req : MainRequest) (f : StateFetch)
    (latency : ℚ) : Option Observation :=
  match req with
  | .transportFailure => none
  | .response status body =>
    let response_json := bodyJson body
    let st := fetchStateModel f response_json.state
    some { action := a, status_code := status, latency_ms := latency,
           response_json := response_json, state := st,
           log_excerpt := st.recent_events.getD [] }

/-! ## Episode driver (`engine/explorer.py` lines 147-187) -/

/-- `EpisodeStep`. -/
structure EpisodeStep where
  step : Nat
  action : ActionInstance
  observation : Observation
  reward : ℚ
deriving DecidableEq

/-- The target service as seen by the driver loop: an oracle giving, for each
abstract server state and performed action, the resulting observation and next
server state.  (The HTTP-level model above is one such oracle once the
transport outcomes are fixed.) -/
structure EnvModel (σ : Type) where
  perform : σ → ActionInstance → Observation × σ

/-- The canonical reset action issued by `BackendEnvironment.reset`. -/
def resetActionInstance : ActionInstance := ⟨"reset", "POST", "/reset", []⟩

/-- `BackendEnvironment.reset`: perform the canonical reset action. -/
def EnvModel.resetEnv {σ : Type} (e : EnvModel σ) (s : σ) : Observation × σ :=
  e.perform s resetActionInstance

/-- Observations produced by performing a list of actions in sequence,
threading the server state; also returns the final server state. -/
def performFold {σ : Type} (e : EnvModel σ) : σ → List ActionInstance →
    List Observation × σ
  | s, [] => ([], s)
  | s, a :: as =>
    let p := e.perform s a
    let rest := performFold e p.2 as
    (p.1 :: rest.1, rest.2)

/-- The driver's mutable state during `run_episode`. -/
structure RunState (σ : Type) where
  env : σ
  rng : Rng
  pol : EpsilonGreedyPolicy
  arch : NoveltyArchive
  steps : List EpisodeStep

/-- The `for step_idx in range(steps)` loop of `run_episode` (lines 174-187):
select, perform, score, update archive, update policy, append the step.
`none` models the `IndexError` that `select` raises on an empty template
list (episode persistence is I/O and is not modelled). -/
def runSteps {σ : Type} (e : EnvModel σ) (m : RewardModel)
    (space : List ActionTemplate) : Nat → Nat → RunState σ → Option (RunState σ)
  | 0, _, st => some st
  | n + 1, idx, st =>
    match st.pol.select space st.rng with
    | (none, _) => none
    | (some a, r2) =>
      let p := e.perform st.env a
      let reward := m.score p.1 st.arch
      let arch2 := st.arch.update p.1
      let pol2 := st.pol.observe a.name reward
      runSteps e m space n (idx + 1)
        ⟨p.2, r2, pol2, arch2, st.steps ++ [⟨idx, a, p.1, reward⟩]⟩

/-- `Explorer.run_episode` (lines 164-187): fresh archive, initial reset whose
observation is archived and reported to the policy under `"reset"` with reward
`0.0` but never appended to the episode's steps, then the step loop. -/
def run_episode {σ : Type} (e : EnvModel σ) (m : RewardModel)
    (space : List ActionTemplate) (pol : EpsilonGreedyPolicy) (steps : Nat)
    (rng : Rng) (s0 : σ) : Option (RunState σ) :=
  let r := e.resetEnv s0
  let arch := emptyArchive.update r.1
  let pol1 := pol.observe "reset" 0
  runSteps e m space steps 0 ⟨r.2, rng, pol1, arch, []⟩

/-! ## Replay driver (`engine/replay.py` lines 15-40) -/

/-- A stored step of a persisted episode artifact, restricted to the fields
`replay` reads (`step`, `action`, `status_code`) plus the recorded reward and
signature, which `replay` ignores. -/
structure StoredStep where
  step : Nat
  action : ActionInstance
  reward : ℚ
  status_code : Int
  state_signature : StateSig
deriving DecidableEq

/-- One result row built by `replay` (lines 30-39). -/
structure ReplayRow where
  step : Nat
  action : ActionInstance
  expected_status : Int
  actual_status : Int
  anomaly_markers : List String
  state_signature : StateSig
deriving DecidableEq

/-- The row `replay` appends for a stored step and the freshly observed
outcome of re-performing its action. -/
def replayRow (st : StoredStep) (o : Observation) : ReplayRow :=
  ⟨st.step, st.action, st.status_code, o.status_code,
    o.anomaly_markers, o.state_signature⟩

/-- The replay loop: perform each stored action in order, collecting rows. -/
def replayGo {σ : Type} (e : EnvModel σ) : σ → List StoredStep → List ReplayRow
  | _, [] => []
  | s, st :: rest =>
    let p := e.perform s st.action
    replayRow st p.1 :: replayGo e p.2 rest

/-- `replay` (lines 15-40): reset the target (discarding the observation),
then re-execute each stored action verbatim and in order.  The artifact-file
parsing and base-URL defaulting are I/O and string plumbing and are not
modelled; the function receives the parsed stored steps. -/
def replayModel {σ : Type} (e : EnvModel σ) (s0 : σ)
    (stored : List StoredStep) : List ReplayRow :=
  replayGo e (e.resetEnv s0).2 stored

/-! ## Concrete instances used to witness the theorems -/

/-- A concrete healthy state snapshot as served by the demo target. -/
def demoState : StateDict :=
  { inventory := some [("widgets", 3)], mode := some "normal",
    orders_total := some 0, alerts := some [], invariants := some [],
    state_version := some 1, recent_events := some [] }

/-- A concrete healthy observation for an action. -/
def demoObs (a : ActionInstance) : Observation :=
  { action := a, status_code := 200, latency_ms := 0,
    response_json := { state := some demoState }, state := demoState,
    log_excerpt := [] }

/-- A stateless concrete target: every action yields the healthy snapshot. -/
def demoEnv : EnvModel Unit := ⟨fun _ a => (demoObs a, ())⟩

/-- A one-template catalog (the reset template of `ActionSpace`), with a
parameter sampler that draws nothing. -/
def demoTemplate : ActionTemplate := ⟨"reset", "POST", "/reset", fun r => ([], r)⟩

/-- A purely exploiting policy (`epsilon = 0`) with no statistics. -/
def demoPolicy : EpsilonGreedyPolicy := mkPolicy 0

/-- Default run state used only as the `getD` fallback below. -/
def demoRunDflt : RunState Unit := ⟨(), ⟨[]⟩, demoPolicy, emptyArchive, []⟩

/-- The concrete two-step episode produced by the demo instances. -/
def demoRunRes : RunState Unit :=
  (run_episode demoEnv {} [demoTemplate] demoPolicy 2 ⟨[]⟩ ()).getD demoRunDflt

/-- A concrete observation carrying two invariant strings that both contain
`"inventory_negative"`, as the target emits one `inventory_negative:<item>`
flag per oversold item. -/
def dupInvObs : Observation :=
  { action := resetActionInstance, status_code := 200, latency_ms := 0,
    response_json := {},
    state := { invariants := some ["inventory_negative:gadgets",
                                   "inventory_negative:widgets"] },
    log_excerpt := [] }

/-- A concrete server-error observation. -/
def obs503 : Observation :=
  { action := resetActionInstance, status_code := 503, latency_ms := 0,
    response_json := {}, state := {}, log_excerpt := [] }

/-- Two templates for exercising tie-breaking in `select`. -/
def tmplA : ActionTemplate := ⟨"restock", "POST", "/inventory", fun r => ([], r)⟩

/-- Second template for the tie-breaking scenario. -/
def tmplB : ActionTemplate := ⟨"purchase", "POST", "/purchase", fun r => ([], r)⟩

/-- A policy whose two recorded actions are tied on the maximal average
reward, with `epsilon = 0` so selection always exploits. -/
def tiedPolicy : EpsilonGreedyPolicy :=
  ⟨0, [("restock", ⟨1, 1⟩), ("purchase", ⟨1, 1⟩)]⟩

/-- Archive contents after a sequence of `update` calls on a fresh archive. -/
def archiveOf (l : List Observation) : NoveltyArchive :=
  l.foldl NoveltyArchive.update emptyArchive

/-- Feeding a reward sequence for one action name to `observe`, in order. -/
def observeAll (p : EpsilonGreedyPolicy) (action_name : String) (rs : List ℚ) :
    EpsilonGreedyPolicy :=
  rs.foldl (fun q r => q.observe action_name r) p

/-- `RewardModel.score` with the unseen-state branch removed: the reward an
observation earns when its state signature is already archived.  Used to
state that such a step receives no novelty bonus. -/
def scoreNoNovelty (m : RewardModel) (o : Observation) (archive : NoveltyArchive) : ℚ :=
  let r1 : ℚ := 0
  let r2 := if o.anomaly_markers ≠ [] then
      r1 + m.anomaly_weight * (o.anomaly_markers.length : ℚ) else r1
  let r3 := if archive.is_new_anomaly o then r2 + m.anomaly_weight else r2
  let r4 := if 250 < o.latency_ms then r3 + m.latency_weight else r3
  if 400 ≤ o.status_code then r4 + 3/10 else r4

/-- The reward formula as the specification words it, with the anomaly term
counting DISTINCT markers.  Compared against `RewardModel.score`, which uses
the multiplicity-counting length of the marker list. -/
def scoreDistinctSpec (m : RewardModel) (o : Observation) (archive : NoveltyArchive) : ℚ :=
  (if archive.is_new_state o then m.novelty_weight else 0)
    + m.anomaly_weight * (o.anomaly_markers.dedup.length : ℚ)
    + (if archive.is_new_anomaly o then m.anomaly_weight else 0)
    + (if 250 < o.latency_ms then m.latency_weight else 0)
    + (if 400 ≤ o.status_code then 3/10 else 0)

/-! ## Helper lemmas -/

/-- Membership in the set-insertion. -/
theorem mem_insertSet {α : Type} [DecidableEq α] (x y : α) (s : List α) :
    x ∈ insertSet y s ↔ x = y ∨ x ∈ s := by
  unfold insertSet
  split
  · rename_i h
    constructor
    · exact Or.inr
    · rintro (rfl | hx)
      · exact h
      · exact hx
  · simp [List.mem_cons]

/-- `update` inserts exactly the observation's signature into the
state-signature set. -/
theorem update_state_signatures (a : NoveltyArchive) (o : Observation) :
    (a.update o).state_signatures = insertSet o.state_signature a.state_signatures := by
  simp only [NoveltyArchive.update]
  by_cases hm : o.anomaly_markers = [] <;> simp [hm]

/-- `update` inserts the canonical anomaly combination exactly when markers
are present. -/
theorem update_anomaly_signatures (a : NoveltyArchive) (o : Observation) :
    (a.update o).anomaly_signatures =
      if o.anomaly_markers ≠ [] then
        insertSet (canonAnomaly o.anomaly_markers) a.anomaly_signatures
      else a.anomaly_signatures := by
  simp only [NoveltyArchive.update]
  by_cases hm : o.anomaly_markers = [] <;> simp [hm]

/-- State signatures present after folding `update` over a list of
observations. -/
theorem mem_foldl_update_state (l : List Observation) (a : NoveltyArchive) (x : StateSig) :
    x ∈ (l.foldl NoveltyArchive.update a).state_signatures ↔
      x ∈ a.state_signatures ∨ x ∈ l.map Observation.state_signature := by
  induction l generalizing a with
  | nil => simp
  | cons o t ih =>
    rw [List.foldl_cons, ih, update_state_signatures]
    rw [mem_insertSet, List.map_cons, List.mem_cons]
    tauto

/-- Anomaly signatures present after folding `update` over a list of
observations. -/
theorem mem_foldl_update_anomaly (l : List Observation) (a : NoveltyArchive) (x : String) :
    x ∈ (l.foldl NoveltyArchive.update a).anomaly_signatures ↔
      x ∈ a.anomaly_signatures ∨
        x ∈ (l.filter (fun y => !y.anomaly_markers.isEmpty)).map
              (fun y => canonAnomaly y.anomaly_markers) := by
  induction l generalizing a with
  | nil => simp
  | cons o t ih =>
    rw [List.foldl_cons, ih, List.filter_cons]
    by_cases hm : o.anomaly_markers = []
    · have h1 : (a.update o).anomaly_signatures = a.anomaly_signatures := by
        rw [update_anomaly_signatures, if_neg]
        simpa using hm
      have h2 : (!o.anomaly_markers.isEmpty) = false := by
        simp [hm]
      rw [h1, h2, if_neg (by simp)]
    · have h1 : (a.update o).anomaly_signatures
          = insertSet (canonAnomaly o.anomaly_markers) a.anomaly_signatures := by
        rw [update_anomaly_signatures, if_pos]
        simpa using hm
      have h2 : (!o.anomaly_markers.isEmpty) = true := by
        cases hM : o.anomaly_markers with
        | nil => exact absurd hM hm
        | cons c cs => simp [hM]
      rw [h1, h2, if_pos rfl, List.map_cons, List.mem_cons, mem_insertSet]
      tauto

/-- Membership form of `is_new_state`. -/
theorem is_new_state_iff (a : NoveltyArchive) (o : Observation) :
    a.is_new_state o = true ↔ o.state_signature ∉ a.state_signatures := by
  unfold NoveltyArchive.is_new_state
  simp

/-- Negative form of `is_new_state`. -/
theorem is_new_state_eq_false (a : NoveltyArchive) (o : Observation) :
    a.is_new_state o = false ↔ o.state_signature ∈ a.state_signatures := by
  unfold NoveltyArchive.is_new_state
  simp

/-- Membership form of `is_new_anomaly`. -/
theorem is_new_anomaly_iff (a : NoveltyArchive) (o : Observation) :
    a.is_new_anomaly o = true ↔
      o.anomaly_markers ≠ [] ∧
        canonAnomaly o.anomaly_markers ∉ a.anomaly_signatures := by
  unfold NoveltyArchive.is_new_anomaly
  by_cases hm : o.anomaly_markers = [] <;> simp [hm]

/-! ## C4: novelty queries are pure membership tests -/

/-- Claim C4: after any sequence of `update` calls on a fresh archive,
`is_new_state` reports exactly whether the observation's state signature has
not yet been passed to `update`, and `is_new_anomaly` reports exactly whether
markers are present and their canonical combination has not yet been recorded;
both are pure queries of the archive contents, so the first occurrence of a
signature reports new and every later occurrence reports seen, independent of
any other queries interleaved between the updates. -/
theorem novelty_queries_are_membership (l : List Observation) (o : Observation) :
    ((archiveOf l).is_new_state o = true ↔
        o.state_signature ∉ l.map Observation.state_signature)
    ∧ ((archiveOf l).is_new_anomaly o = true ↔
        (o.anomaly_markers ≠ [] ∧
          canonAnomaly o.anomaly_markers ∉
            (l.filter (fun y => !y.anomaly_markers.isEmpty)).map
              (fun y => canonAnomaly y.anomaly_markers))) := by
  constructor
  · rw [is_new_state_iff]
    unfold archiveOf
    rw [mem_foldl_update_state]
    simp [emptyArchive]
  · rw [is_new_anomaly_iff]
    unfold archiveOf
    rw [mem_foldl_update_anomaly]
    simp [emptyArchive]

/-! ## C10: a 5xx status yields both HTTP error markers -/

/-- Claim C10: every observation with a server-error status (`>= 500`) carries
both the `"http_5xx"` and the `"http_4xx"` anomaly marker, because the 4xx
check fires for every status `>= 400` including server errors. -/
theorem markers_5xx_includes_4xx (o : Observation) (h : 500 ≤ o.status_code) :
    "http_5xx" ∈ o.anomaly_markers ∧ "http_4xx" ∈ o.anomaly_markers := by
  have h4 : (400 : Int) ≤ o.status_code := le_trans (by norm_num) h
  unfold Observation.anomaly_markers
  rw [if_pos h, if_pos h4]
  constructor
  · simp
  · simp

/-- Witness for C10 at a concrete 503 observation. -/
theorem markers_5xx_includes_4xx_witness :
    "http_5xx" ∈ obs503.anomaly_markers ∧ "http_4xx" ∈ obs503.anomaly_markers :=
  markers_5xx_includes_4xx obs503 (by norm_num [obs503])

/-! ## C1: error degradation in `BackendEnvironment.perform` -/

/-- Counterexample to claim C1: a transport failure of the main HTTP request
(connection refused or timeout in `self._session.request`, which no `try`
guards) escapes `perform` instead of degrading to a diagnostic Observation;
the step aborts. -/
theorem perform_transport_failure_aborts :
    performModel resetActionInstance MainRequest.transportFailure
      StateFetch.failure 0 = none := rfl

/-- Amended C1: once the main HTTP request returns a response, `perform`
always returns an Observation: a malformed body is replaced by the raw-text
placeholder, a failed state fetch falls back to the state embedded in the
action's own response, and when both are unavailable the Observation carries
the empty state.  Only a transport failure of the main request itself escapes. -/
theorem perform_response_never_aborts (a : ActionInstance) (s : Int)
    (b : BodyDecode) (f : StateFetch) (q : ℚ) (raw : String) :
    (performModel a (.response s b) f q).isSome = true
    ∧ (performModel a (.response s b) .failure q).map Observation.state
        = some ((bodyJson b).state.getD emptyStateDict)
    ∧ (performModel a (.response s (.malformed raw)) .failure q).map Observation.state
        = some emptyStateDict
    ∧ (performModel a (.response s (.malformed raw)) f q).map Observation.response_json
        = some { state := none, raw_body := some raw } := by
  refine ⟨?_, ?_, ?_, ?_⟩
  · cases b <;> cases f <;> rfl
  · cases b <;> rfl
  · rfl
  · cases f <;> rfl

/-! ## C2: replay re-executes the stored actions verbatim -/

/-- The rows produced by the replay loop are exactly the stored steps zipped
with the fresh observations of performing their actions in order. -/
theorem replayGo_eq_zipWith {σ : Type} (e : EnvModel σ) (stored : List StoredStep)
    (s : σ) :
    replayGo e s stored
      = List.zipWith replayRow stored (performFold e s (stored.map StoredStep.action)).1 := by
  induction stored generalizing s with
  | nil => rfl
  | cons st rest ih =>
    simp only [replayGo, List.map_cons, performFold, List.zipWith_cons_cons]
    rw [ih]

/-- Claim C2: `replay` first resets the target, then performs exactly the
stored actions, verbatim and in original order, producing one row per stored
step; each row pairs the recorded status code (as `expected_status`) with the
freshly observed status and freshly recomputed anomaly markers and state
signature.  The result is a function of the stored actions and the target
alone: `replayModel` takes no policy and no archive, and its rows carry no
reward. -/
theorem replay_reexecutes_stored_actions {σ : Type} (e : EnvModel σ) (s0 : σ)
    (stored : List StoredStep) :
    replayModel e s0 stored
      = List.zipWith replayRow stored
          (performFold e (e.resetEnv s0).2 (stored.map StoredStep.action)).1
    ∧ (replayModel e s0 stored).map ReplayRow.action = stored.map StoredStep.action
    ∧ (replayModel e s0 stored).map ReplayRow.expected_status
        = stored.map StoredStep.status_code
    ∧ (replayModel e s0 stored).length = stored.length := by
  refine ⟨replayGo_eq_zipWith e stored _, ?_, ?_, ?_⟩
  all_goals
    unfold replayModel
    generalize (e.resetEnv s0).2 = s
    induction stored generalizing s with
    | nil => rfl
    | cons st rest ih => simp only [replayGo, List.map_cons, List.length_cons, replayRow, ih]

/-! ## C5: the reward is a weighted sum, but counts markers with multiplicity -/

/-- The duplicated-marker evaluation: two oversold items give two invariant
strings, hence two `"inventory_negative"` entries in the marker list. -/
theorem dupInvObs_markers :
    dupInvObs.anomaly_markers = ["inventory_negative", "inventory_negative"] := rfl

/-- Counterexample to claim C5: on an observation whose state carries two
`inventory_negative:*` invariants, `score` pays the per-marker bonus twice
(list length 2) although only one distinct marker is present, so it differs
from the distinct-count formula the claim states. -/
theorem score_counts_duplicate_markers :
    RewardModel.score {} dupInvObs emptyArchive
      ≠ scoreDistinctSpec {} dupInvObs emptyArchive := by
  have hs : emptyArchive.is_new_state dupInvObs = true := rfl
  have ha : emptyArchive.is_new_anomaly dupInvObs = true := rfl
  have hlat : ¬ ((250 : ℚ) < dupInvObs.latency_ms) := by
    norm_num [dupInvObs]
  have hstat : ¬ ((400 : Int) ≤ dupInvObs.status_code) := by
    norm_num [dupInvObs]
  have hne : (["inventory_negative", "inventory_negative"] : List String) ≠ [] :=
    List.cons_ne_nil _ _
  have h1 : RewardModel.score {} dupInvObs emptyArchive = 7 := by
    norm_num [RewardModel.score, hs, ha, dupInvObs_markers, hlat, hstat, hne]
  have h2 : scoreDistinctSpec {} dupInvObs emptyArchive = 5 := by
    norm_num [scoreDistinctSpec, hs, ha, dupInvObs_markers, hlat, hstat, hne,
      List.dedup_cons_of_mem]
  rw [h1, h2]
  norm_num

/-- Amended C5: `score` is the stated weighted sum except that the anomaly
term multiplies the per-marker bonus by the length of the marker list, which
counts `"inventory_negative"` once per matching invariant (multiplicity, not
distinct markers); with the default weights the score is non-negative. -/
theorem score_weighted_sum (m : RewardModel) (o : Observation)
    (archive : NoveltyArchive) :
    m.score o archive
      = (if archive.is_new_state o then m.novelty_weight else 0)
        + m.anomaly_weight * (o.anomaly_markers.length : ℚ)
        + (if archive.is_new_anomaly o then m.anomaly_weight else 0)
        + (if 250 < o.latency_ms then m.latency_weight else 0)
        + (if 400 ≤ o.status_code then (3 : ℚ)/10 else 0)
    ∧ 0 ≤ RewardModel.score {} o archive := by
  have hsum : ∀ (mm : RewardModel), mm.score o archive
      = (if archive.is_new_state o then mm.novelty_weight else 0)
        + mm.anomaly_weight * (o.anomaly_markers.length : ℚ)
        + (if archive.is_new_anomaly o then mm.anomaly_weight else 0)
        + (if 250 < o.latency_ms then mm.latency_weight else 0)
        + (if 400 ≤ o.status_code then (3 : ℚ)/10 else 0) := by
    intro mm
    simp only [RewardModel.score]
    by_cases h2 : o.anomaly_markers ≠ []
    · simp only [if_pos h2]
      split <;> split <;> split <;> split <;> ring
    · have hlen : o.anomaly_markers.length = 0 := by
        simp only [ne_eq, not_not] at h2
        simp [h2]
      simp only [if_neg h2, hlen, Nat.cast_zero, mul_zero]
      split <;> split <;> split <;> split <;> ring
  refine ⟨hsum m, ?_⟩
  rw [hsum {}]
  refine add_nonneg (add_nonneg (add_nonneg (add_nonneg ?_ ?_) ?_) ?_) ?_
  · split <;> norm_num
  · exact mul_nonneg (by norm_num) (Nat.cast_nonneg _)
  · split <;> norm_num
  · split <;> norm_num
  · split <;> norm_num

/-! ## C6: sequential `observe` computes the arithmetic mean -/

/-- Looking up the key just written by `upsert` yields the written value. -/
theorem lookup_upsert (l : List (String × ActionStats)) (k : String) (v : ActionStats) :
    (upsert l k v).lookup k = some v := by
  induction l with
  | nil => simp [upsert, List.lookup]
  | cons kv t ih =>
    by_cases h : kv.1 = k
    · simp [upsert, h, List.lookup]
    · have hb : (kv.1 == k) = false := by simp [h]
      have hb2 : (k == kv.1) = false := by simp [Ne.symm h]
      simp only [upsert, hb, Bool.false_eq_true, if_false, List.lookup, hb2]
      exact ih

/-- One `observe` call on a name with recorded statistics `{count, avg}`
stores `{count + 1, (avg*count + reward)/(count + 1)}`. -/
theorem observe_lookup_some (p : EpsilonGreedyPolicy) (name : String)
    (r : ℚ) (c : Nat) (a : ℚ) (h : p.action_stats.lookup name = some ⟨c, a⟩) :
    ((p.observe name r).action_stats.lookup name)
      = some ⟨c + 1, (a * (c : ℚ) + r) / ((c : ℚ) + 1)⟩ := by
  simp only [EpsilonGreedyPolicy.observe, h, Option.getD_some]
  exact lookup_upsert _ _ _

/-- One `observe` call on an unseen name stores `{1, reward}`. -/
theorem observe_lookup_none (p : EpsilonGreedyPolicy) (name : String)
    (r : ℚ) (h : p.action_stats.lookup name = none) :
    ((p.observe name r).action_stats.lookup name) = some ⟨1, r⟩ := by
  simp only [EpsilonGreedyPolicy.observe, h, Option.getD_none]
  rw [lookup_upsert]
  norm_num

/-- Invariant of the running-average loop: statistics of the form
`{c, s/c}` with `c ≥ 1` absorb a reward list into `{c + n, (s + sum)/(c + n)}`. -/
theorem observeAll_invariant (name : String) (rs : List ℚ) :
    ∀ (p : EpsilonGreedyPolicy) (c : Nat) (s : ℚ),
      1 ≤ c →
      p.action_stats.lookup name = some ⟨c, s / ((c : Nat) : ℚ)⟩ →
      (observeAll p name rs).action_stats.lookup name
        = some ⟨c + rs.length, (s + rs.sum) / (((c + rs.length : Nat) : ℚ))⟩ := by
  induction rs with
  | nil =>
    intro p c s _ h
    simpa using h
  | cons r rest ih =>
    intro p c s hc h
    have hcQ : ((c : Nat) : ℚ) ≠ 0 := by
      have : 0 < ((c : Nat) : ℚ) := by exact_mod_cast hc
      exact ne_of_gt this
    have hstep := observe_lookup_some p name r c (s / ((c : Nat) : ℚ)) h
    have hstep2 : ((p.observe name r).action_stats.lookup name)
        = some ⟨c + 1, (s + r) / (((c + 1 : Nat)) : ℚ)⟩ := by
      rw [hstep]
      congr 2
      rw [div_mul_cancel₀ _ hcQ]
      push_cast
      ring
    have hrec := ih (p.observe name r) (c + 1) (s + r) (by omega) hstep2
    rw [show observeAll p name (r :: rest) = observeAll (p.observe name r) name rest
      from rfl, hrec]
    simp only [Option.some_inj, ActionStats.mk.injEq, List.length_cons, List.sum_cons]
    constructor
    · omega
    · push_cast
      ring_nf

/-- Claim C6: feeding the rewards `r1..rn` (n ≥ 1) sequentially to `observe`
for a name with no prior statistics leaves `count = n` and running average
equal to the arithmetic mean `(r1+...+rn)/n`; each step is the incremental
update `avg' = (avg*count + reward)/(count+1)` with the count incremented
(see `observe_lookup_some`). -/
theorem observe_yields_arithmetic_mean (p : EpsilonGreedyPolicy) (name : String)
    (rs : List ℚ) (h0 : p.action_stats.lookup name = none) (h1 : rs ≠ []) :
    (observeAll p name rs).action_stats.lookup name
      = some ⟨rs.length, rs.sum / ((rs.length : Nat) : ℚ)⟩ := by
  obtain ⟨r, rest, rfl⟩ := List.exists_cons_of_ne_nil h1
  have hfirst : ((p.observe name r).action_stats.lookup name) = some ⟨1, r⟩ :=
    observe_lookup_none p name r h0
  have hfirst2 : ((p.observe name r).action_stats.lookup name)
      = some ⟨1, r / (((1 : Nat)) : ℚ)⟩ := by
    rw [hfirst]
    norm_num
  have hrec := observeAll_invariant name rest (p.observe name r) 1 r le_rfl hfirst2
  rw [show observeAll p name (r :: rest) = observeAll (p.observe name r) name rest
    from rfl, hrec]
  simp only [Option.some_inj, ActionStats.mk.injEq, List.length_cons, List.sum_cons]
  constructor
  · omega
  · push_cast
    ring_nf

/-- Witness for C6: rewards `[1, 3]` for a fresh name end with count 2 and
average 2. -/
theorem observe_yields_arithmetic_mean_witness :
    (observeAll (mkPolicy (1/4)) "restock" [(1:ℚ), 3]).action_stats.lookup "restock"
      = some ⟨([(1:ℚ), 3]).length, ([(1:ℚ), 3]).sum / ((([(1:ℚ), 3]).length : Nat) : ℚ)⟩ :=
  observe_yields_arithmetic_mean (mkPolicy (1/4)) "restock" [(1:ℚ), 3] rfl
    (List.cons_ne_nil _ _)

/-! ## C7: tie-breaking in `select` -/

/-- In the exploitation branch, the selected name is the `argmaxFirst` name:
the first recorded name attaining the maximal average.  The choice consumes no
randomness, so it is the same for every random stream that lands in this
branch. -/
theorem select_exploit_name (p : EpsilonGreedyPolicy)
    (space : List ActionTemplate) (r : Rng) (bn : String × ℚ)
    (h1 : ¬ ((r.next).1 < p.epsilon))
    (h4 : argmaxFirst (p.action_stats.map (fun nv => (nv.1, nv.2.avg))) = some bn)
    (h5 : space.filter (fun t => t.name == bn.1) ≠ []) :
    (p.select space r).1.map ActionInstance.name = some bn.1 := by
  simp only [EpsilonGreedyPolicy.select, if_neg h1, h4]
  rcases hf : space.filter (fun t => t.name == bn.1) with _ | ⟨c, cs⟩
  · exact absurd hf h5
  · have hc : c ∈ space.filter (fun t => t.name == bn.1) := by
      rw [hf]
      exact List.mem_cons_self _ _
    have hcn : c.name = bn.1 := by
      have := (List.mem_filter.mp hc).2
      simpa using this
    simp only [hf, ActionTemplate.sample, Option.map_some']
    rw [hcn]

/-- Counterexample to claim C7: with two recorded names tied at the maximal
average and `epsilon = 0`, `select` returns the first recorded name, and its
remaining random stream — the one a uniform choice among the tied names would
consume — would have picked the second name.  The tie is resolved by
insertion order, not by random choice. -/
theorem select_tie_not_random :
    ((tiedPolicy.select [tmplA, tmplB] ⟨[1, 3/4]⟩).1.map ActionInstance.name
        = some "restock")
    ∧ ((tiedPolicy.select [tmplA, tmplB] ⟨[1, 3/4]⟩).2 = ⟨[3/4]⟩)
    ∧ ((Rng.choice ⟨[3/4]⟩ ["restock", "purchase"]).1 = some "purchase") := by
  refine ⟨rfl, rfl, ?_⟩
  have hfl : (⌊(3/4 : ℚ) * ((2 : Nat) : ℚ)⌋ : Int) = 1 := by
    rw [Int.floor_eq_iff]; norm_num
  simp only [Rng.choice, Rng.next, chooseIdx, List.length_cons, List.length_nil, hfl]
  rfl

/-- Amended C7: when two or more recorded names are tied for the highest
running average, the exploitation branch of `select` deterministically
resolves to the first-recorded tied name (Python's `max` keeps the first
maximum and the first matching template is used), for every random stream
landing in that branch — never an error; uniform random sampling is used only
in the explore, no-statistics and no-matching-template cases. -/
theorem select_tie_resolves_to_first (p : EpsilonGreedyPolicy)
    (space : List ActionTemplate) (r r2 : Rng) (bn : String × ℚ)
    (h1 : ¬ ((r.next).1 < p.epsilon)) (h2 : ¬ ((r2.next).1 < p.epsilon))
    (h4 : argmaxFirst (p.action_stats.map (fun nv => (nv.1, nv.2.avg))) = some bn)
    (h5 : space.filter (fun t => t.name == bn.1) ≠ []) :
    (p.select space r).1.map ActionInstance.name = some bn.1
    ∧ (p.select space r2).1.map ActionInstance.name = some bn.1 :=
  ⟨select_exploit_name p space r bn h1 h4 h5,
   select_exploit_name p space r2 bn h2 h4 h5⟩

/-- Witness for C7 (amended): the tied demo policy picks `"restock"` under two
different random streams. -/
theorem select_tie_resolves_to_first_witness :
    (tiedPolicy.select [tmplA, tmplB] ⟨[1]⟩).1.map ActionInstance.name = some "restock"
    ∧ (tiedPolicy.select [tmplA, tmplB] ⟨[2]⟩).1.map ActionInstance.name = some "restock" :=
  select_tie_resolves_to_first tiedPolicy [tmplA, tmplB] ⟨[1]⟩ ⟨[2]⟩ ("restock", 1)
    (by norm_num [Rng.next, tiedPolicy]) (by norm_num [Rng.next, tiedPolicy])
    rfl (by simp [tmplA, tmplB])

/-! ## The step loop: trace characterization and totality -/

/-- Full characterization of a successful run of the step loop: the appended
steps carry the successive indices, the final policy and archive are the folds
of `observe` and `update` over them, the observations are exactly those the
environment produces for the chosen actions in order, and each step's reward
was computed by `score` against the archive as it stood before that step. -/
theorem runSteps_spec {σ : Type} (e : EnvModel σ) (m : RewardModel)
    (space : List ActionTemplate) :
    ∀ (n idx : Nat) (st st2 : RunState σ),
      runSteps e m space n idx st = some st2 →
      ∃ ns : List EpisodeStep,
        st2.steps = st.steps ++ ns
        ∧ ns.map EpisodeStep.step = List.range' idx n
        ∧ st2.pol = ns.foldl (fun p s => p.observe s.action.name s.reward) st.pol
        ∧ st2.arch = ns.foldl (fun a s => a.update s.observation) st.arch
        ∧ (ns.map EpisodeStep.observation, st2.env)
            = performFold e st.env (ns.map EpisodeStep.action)
        ∧ ∀ (i : Nat) (hi : i < ns.length),
            (ns.get ⟨i, hi⟩).reward
              = m.score (ns.get ⟨i, hi⟩).observation
                  ((ns.take i).foldl (fun a s => a.update s.observation) st.arch) := by
  intro n
  induction n with
  | zero =>
    intro idx st st2 h
    simp only [runSteps, Option.some.injEq] at h
    subst h
    refine ⟨[], by simp, rfl, rfl, rfl, by simp [performFold], ?_⟩
    intro i hi
    exact absurd hi (by simp)
  | succ n ih =>
    intro idx st st2 h
    simp only [runSteps] at h
    rcases hsel : (st.pol.select space st.rng) with ⟨oa, r2⟩
    rw [hsel] at h
    cases oa with
    | none => simp at h
    | some a =>
      dsimp only at h
      obtain ⟨ns, h1, h2, h3, h4, h5, h6⟩ := ih (idx + 1) _ st2 h
      refine ⟨⟨idx, a, (e.perform st.env a).1, m.score (e.perform st.env a).1 st.arch⟩ :: ns,
        ?_, ?_, ?_, ?_, ?_, ?_⟩
      · rw [h1]
        simp [List.append_assoc]
      · rw [List.map_cons, h2]
        rfl
      · rw [h3]
        rfl
      · rw [h4]
        rfl
      · simp only [List.map_cons, performFold]
        rw [← h5]
      · intro i hi
        cases i with
        | zero => rfl
        | succ i =>
          have hi2 : i < ns.length := by
            simpa using hi
          have := h6 i hi2
          simpa using this

/-- A uniform-random template draw always succeeds on a nonempty catalog. -/
theorem randomTemplateSample_isSome (space : List ActionTemplate)
    (h : space ≠ []) (r : Rng) :
    ((randomTemplateSample space r).1).isSome = true := by
  have hlen : 0 < space.length := List.length_pos.mpr h
  have hidx : chooseIdx (r.next).1 space.length < space.length := by
    unfold chooseIdx
    exact lt_of_le_of_lt (Nat.min_le_right _ _) (Nat.sub_lt hlen one_pos)
  have hget := List.get?_eq_get hidx
  simp only [randomTemplateSample, Rng.choice, hget]
  rfl

/-- `select` always returns an action on a nonempty catalog: ties, missing
statistics and unmatched names all resolve to some choice, never an error. -/
theorem select_fst_isSome (p : EpsilonGreedyPolicy) (space : List ActionTemplate)
    (r : Rng) (h : space ≠ []) :
    ((p.select space r).1).isSome = true := by
  simp only [EpsilonGreedyPolicy.select]
  split
  · exact randomTemplateSample_isSome space h _
  · rcases hm : argmaxFirst (p.action_stats.map (fun nv => (nv.1, nv.2.avg))) with _ | best
    · simp only [hm]
      exact randomTemplateSample_isSome space h _
    · simp only [hm]
      rcases hf : space.filter (fun t => t.name == best.1) with _ | ⟨c, cs⟩
      · simp only [hf]
        exact randomTemplateSample_isSome space h _
      · simp only [hf]
        rfl

/-- The step loop never fails on a nonempty catalog. -/
theorem runSteps_total {σ : Type} (e : EnvModel σ) (m : RewardModel)
    (space : List ActionTemplate) (h : space ≠ []) :
    ∀ (n idx : Nat) (st : RunState σ), ∃ st2, runSteps e m space n idx st = some st2 := by
  intro n
  induction n with
  | zero => exact fun idx st => ⟨st, rfl⟩
  | succ n ih =>
    intro idx st
    have hs := select_fst_isSome st.pol space st.rng h
    rcases hsel : st.pol.select space st.rng with ⟨oa, r2⟩
    rw [hsel] at hs
    cases oa with
    | none => exact absurd hs (by simp)
    | some a =>
      obtain ⟨st2, h2⟩ := ih (idx + 1)
        ⟨(e.perform st.env a).2, r2, st.pol.observe a.name (m.score (e.perform st.env a).1 st.arch),
          st.arch.update (e.perform st.env a).1,
          st.steps ++ [⟨idx, a, (e.perform st.env a).1, m.score (e.perform st.env a).1 st.arch⟩]⟩
      refine ⟨st2, ?_⟩
      simp only [runSteps, hsel]
      exact h2

/-! ## C3: step indices are exactly `0..steps-1` -/

/-- Claim C3: the `step` fields of an episode produced by `run_episode` are
exactly `0, 1, ..., steps-1` in order — strictly increasing from 0, no gaps,
no repeats. -/
theorem run_episode_step_indices {σ : Type} (e : EnvModel σ) (m : RewardModel)
    (space : List ActionTemplate) (pol : EpsilonGreedyPolicy) (n : Nat)
    (rng : Rng) (s0 : σ) (res : RunState σ)
    (h : run_episode e m space pol n rng s0 = some res) :
    res.steps.map EpisodeStep.step = List.range n := by
  unfold run_episode at h
  obtain ⟨ns, h1, h2, -⟩ := runSteps_spec e m space n 0 _ res h
  simp only [List.nil_append] at h1
  rw [h1, h2, List.range_eq_range']

/-- The concrete demo episode: two steps against the healthy one-template
target. -/
theorem demoRun_eq :
    run_episode demoEnv {} [demoTemplate] demoPolicy 2 ⟨[]⟩ () = some demoRunRes := rfl

/-- Witness for C3 on the concrete demo episode. -/
theorem run_episode_step_indices_witness :
    demoRunRes.steps.map EpisodeStep.step = List.range 2 :=
  run_episode_step_indices demoEnv {} [demoTemplate] demoPolicy 2 ⟨[]⟩ ()
    demoRunRes demoRun_eq

/-! ## C8: invalid configuration is not rejected at startup -/

/-- Counterexample to claim C8: constructing the policy with
`epsilon = -1` — outside `[0,1]` — succeeds, and a one-step episode under it
executes its step; nothing is fatal at startup. -/
theorem invalid_epsilon_not_fatal :
    (run_episode demoEnv {} [demoTemplate] (mkPolicy (-1)) 1 ⟨[]⟩ ()).map
      (fun res => res.steps.length) = some 1 := rfl

/-- Amended C8: `EpsilonGreedyPolicy.__init__` performs no validation — any
epsilon, in range or not, is stored unchanged with empty statistics, and on a
nonempty action catalog every episode still runs all of its steps.  (An empty
catalog cannot arise from the engine's own `ActionSpace`, and would fail only
inside `select` mid-episode, not at startup.) -/
theorem policy_accepts_any_epsilon {σ : Type} (e : EnvModel σ) (m : RewardModel)
    (space : List ActionTemplate) (epsilon : ℚ) (n : Nat) (rng : Rng) (s0 : σ)
    (h : space ≠ []) :
    (mkPolicy epsilon).epsilon = epsilon
    ∧ (mkPolicy epsilon).action_stats = []
    ∧ (run_episode e m space (mkPolicy epsilon) n rng s0).map
        (fun res => res.steps.length) = some n := by
  refine ⟨rfl, rfl, ?_⟩
  unfold run_episode
  obtain ⟨st2, h2⟩ := runSteps_total e m space h n 0
    ⟨(e.resetEnv s0).2, rng, (mkPolicy epsilon).observe "reset" 0,
      emptyArchive.update (e.resetEnv s0).1, []⟩
  obtain ⟨ns, h1, hsteps, -⟩ := runSteps_spec e m space n 0 _ st2 h2
  have hlen : st2.steps.length = n := by
    rw [h1]
    have := congrArg List.length hsteps
    simpa using this
  rw [h2]
  simp [hlen]

/-- Witness for C8 (amended) at the out-of-range epsilon `3/2`. -/
theorem policy_accepts_any_epsilon_witness :
    (mkPolicy (3/2)).epsilon = 3/2
    ∧ (mkPolicy (3/2)).action_stats = []
    ∧ (run_episode demoEnv {} [demoTemplate] (mkPolicy (3/2)) 1 ⟨[]⟩ ()).map
        (fun res => res.steps.length) = some 1 :=
  policy_accepts_any_epsilon demoEnv {} [demoTemplate] (3/2) 1 ⟨[]⟩ ()
    (List.cons_ne_nil _ _)

/-! ## C9: the initial reset is archived and scored but never recorded -/

/-- An already-seen state signature earns the reward with the novelty branch
skipped. -/
theorem score_of_not_new (m : RewardModel) (o : Observation)
    (archive : NoveltyArchive) (h : archive.is_new_state o = false) :
    m.score o archive = scoreNoNovelty m o archive := by
  simp only [RewardModel.score, scoreNoNovelty, h]
  simp

/-- Claim C9: a run of `n` steps performs `n+1` actions: the initial reset's
observation seeds the archive and is reported to the policy under `"reset"`
with reward `0`, but is never appended to the episode, which holds exactly
`n` steps; the final policy and archive are the folds over the reset entry
followed by the recorded steps, the recorded observations are exactly those
produced by performing the reset and then the chosen actions in order, and
any later step whose state signature equals the post-reset signature is not
new to the archive and earns no novelty bonus. -/
theorem run_episode_reset_bookkeeping {σ : Type} (e : EnvModel σ) (m : RewardModel)
    (space : List ActionTemplate) (pol : EpsilonGreedyPolicy) (n : Nat)
    (rng : Rng) (s0 : σ) (res : RunState σ)
    (h : run_episode e m space pol n rng s0 = some res) :
    res.steps.length = n
    ∧ res.pol = res.steps.foldl (fun p s => p.observe s.action.name s.reward)
        (pol.observe "reset" 0)
    ∧ res.arch = res.steps.foldl (fun a s => a.update s.observation)
        (emptyArchive.update (e.resetEnv s0).1)
    ∧ (res.steps.map EpisodeStep.observation, res.env)
        = performFold e (e.resetEnv s0).2 (res.steps.map EpisodeStep.action)
    ∧ ∀ (i : Nat) (hi : i < res.steps.length),
        (res.steps.get ⟨i, hi⟩).observation.state_signature
            = (e.resetEnv s0).1.state_signature →
          ((res.steps.take i).foldl (fun a s => a.update s.observation)
              (emptyArchive.update (e.resetEnv s0).1)).is_new_state
              (res.steps.get ⟨i, hi⟩).observation = false
          ∧ (res.steps.get ⟨i, hi⟩).reward
              = scoreNoNovelty m (res.steps.get ⟨i, hi⟩).observation
                  ((res.steps.take i).foldl (fun a s => a.update s.observation)
                    (emptyArchive.update (e.resetEnv s0).1)) := by
  unfold run_episode at h
  obtain ⟨ns, h1, h2, h3, h4, h5, h6⟩ := runSteps_spec e m space n 0 _ res h
  simp only [List.nil_append] at h1
  subst h1
  have hlen : res.steps.length = n := by
    have := congrArg List.length h2
    simpa using this
  refine ⟨hlen, h3, h4, h5, ?_⟩
  intro i hi hsig
  have hmem : (e.resetEnv s0).1.state_signature ∈
      ((res.steps.take i).foldl (fun a s => a.update s.observation)
        (emptyArchive.update (e.resetEnv s0).1)).state_signatures := by
    rw [← List.foldl_map EpisodeStep.observation NoveltyArchive.update,
      mem_foldl_update_state]
    left
    rw [update_state_signatures]
    exact (mem_insertSet _ _ _).mpr (Or.inl rfl)
  have hseen : ((res.steps.take i).foldl (fun a s => a.update s.observation)
      (emptyArchive.update (e.resetEnv s0).1)).is_new_state
      (res.steps.get ⟨i, hi⟩).observation = false := by
    rw [is_new_state_eq_false, hsig]
    exact hmem
  refine ⟨hseen, ?_⟩
  rw [h6 i hi]
  exact score_of_not_new m _ _ hseen

/-- Witness for C9 on the concrete demo episode. -/
theorem run_episode_reset_bookkeeping_witness :
    demoRunRes.steps.length = 2 :=
  (run_episode_reset_bookkeeping demoEnv {} [demoTemplate] demoPolicy 2 ⟨[]⟩ ()
    demoRunRes demoRun_eq).1
